import Mathlib

/-!
Verification of the sanity-backups service against its specification.

The development shallowly embeds the TypeScript server (the Express app in
the repository's backend source): the in-memory backup status map, the
lifecycle of `performBackup`, the `/api/backup/...` start handler, the
status, listing and download handlers.  External effects (the Sanity
connectivity probe, `@sanity/export`, the filesystem, the S3 upload and
fetch) are modelled by an oracle record giving each call's outcome, and
`Date.now()` by a list of sampled timestamps, so that each run of the
orchestrator is a pure function of its inputs.

JavaScript string primitives (`split`, `endsWith`, `join`, `replace`,
string comparison, decimal rendering of numbers) are modelled by
structurally recursive functions on the underlying character lists, so
that every concrete run can be evaluated inside the kernel.
-/

namespace SanityBackups

/-! ### JavaScript string primitives -/

/-- Model of JavaScript `s.split(c)` for a one-character separator: split
at every occurrence, keeping empty pieces, and `""` splits to `[""]`. -/
def splitOnChar (c : Char) : List Char → List (List Char)
  | [] => [[]]
  | x :: xs =>
    let rest := splitOnChar c xs
    if x = c then [] :: rest
    else
      match rest with
      | [] => [[x]]
      | r :: rs => (x :: r) :: rs

/-- String-level wrapper for `splitOnChar`. -/
def jsSplit (s : String) (c : Char) : List String :=
  (splitOnChar c s.data).map String.mk

/-- Model of JavaScript `arr.join(sep)` for a one-character separator. -/
def jsJoin (c : Char) (xs : List String) : String :=
  String.mk (List.intercalate [c] (xs.map String.data))

/-- Model of JavaScript `s.endsWith(pat)`. -/
def jsEndsWith (s pat : String) : Bool :=
  pat.data.isSuffixOf s.data

/-- Core of `jsReplaceFirst`: remove the leftmost occurrence of `pat`. -/
def replaceFirstAux (pat : List Char) : List Char → List Char
  | [] => []
  | x :: xs =>
    if pat.isPrefixOf (x :: xs) then (x :: xs).drop pat.length
    else x :: replaceFirstAux pat xs

/-- Model of JavaScript `s.replace(pat, '')` with a plain-string pattern:
only the first occurrence of `pat` is removed. -/
def jsReplaceFirst (s pat : String) : String :=
  String.mk (replaceFirstAux pat.data s.data)

/-- Lexicographic comparison of character lists by code point. -/
def lexCmp : List Char → List Char → Ordering
  | [], [] => .eq
  | [], _ :: _ => .lt
  | _ :: _, [] => .gt
  | a :: as, b :: bs =>
    match compare a.toNat b.toNat with
    | .eq => lexCmp as bs
    | o => o

/-- Model of JavaScript `a.localeCompare(b)` on the ASCII strings this
service compares (digit strings): code-point lexicographic order. -/
def jsCompare (a b : String) : Ordering :=
  lexCmp a.data b.data

/-! ### JavaScript decimal rendering of numbers

`Date.now()` interpolated into a template literal renders as the decimal
digit string of the (integer) timestamp.  `decDigits` computes the
little-endian decimal digits with explicit fuel so that it is structurally
recursive and evaluates inside the kernel; it agrees with `Nat.digits 10`.
-/

/-- Character for one decimal digit. -/
def decDigitChar (d : Nat) : Char :=
  match d with
  | 0 => '0' | 1 => '1' | 2 => '2' | 3 => '3' | 4 => '4'
  | 5 => '5' | 6 => '6' | 7 => '7' | 8 => '8' | _ => '9'

/-- Numeric value of a decimal digit character. -/
def decCharVal (c : Char) : Nat := c.toNat - 48

/-- Little-endian decimal digits of `n`, with fuel. -/
def decDigits (fuel n : Nat) : List Nat :=
  match fuel with
  | 0 => []
  | fuel + 1 => if n = 0 then [] else n % 10 :: decDigits fuel (n / 10)

/-- Model of JavaScript number-to-string conversion for the nonnegative
integers this service renders (timestamps, percentages). -/
def decString (n : Nat) : String :=
  if n = 0 then "0" else String.mk ((decDigits n n).reverse.map decDigitChar)

/-! ### Stable sort

`Array.prototype.sort` is stable (ES2019).  It is modelled by a stable
insertion sort: an element is inserted before the first element it does
not compare strictly after, so elements comparing as ties keep their
original relative order.  On inputs where the comparator is a total
preorder (in particular the two-object bucket of claim C1, where both
parsed dates are non-empty) every stable sort produces this same output.
-/

/-- Insert `x` before the first element `y` with `le x y`. -/
def stableInsert (le : α → α → Bool) (x : α) : List α → List α
  | [] => [x]
  | y :: ys => if le x y then x :: y :: ys else y :: stableInsert le x ys

/-- Stable insertion sort. -/
def stableSort (le : α → α → Bool) : List α → List α
  | [] => []
  | x :: xs => stableInsert le x (stableSort le xs)

/-! ### Listing component

Model of the `GET /api/backups/list` handler: filter the bucket contents
to keys ending in `.tar.gz`, parse each key on hyphens, and sort by the
parsed date string descending.
-/

structure S3Object where
  key : String
  size : Nat
  lastModified : Nat
  deriving Repr, DecidableEq

/-- Summary record built by the list handler for one object.  The JSON
response also carries a `sizeMB` string produced by floating-point
`toFixed(2)`; that presentation-only field is not modelled. -/
structure ArchiveSummary where
  key : String
  projectName : String
  date : String
  dataset : String
  projectId : String
  size : Nat
  lastModified : Nat
  deriving Repr, DecidableEq

/-- Parse one object into its summary, following the handler's map step:
split the key on `-`; when there are at least four pieces, the last three
are date, dataset and projectId (with `.tar.gz` stripped from the last)
and everything before them re-joined with `-` is the project name;
otherwise all four parsed fields stay empty strings. -/
def parseArchive (obj : S3Object) : ArchiveSummary :=
  let parts := jsSplit obj.key '-'
  if parts.length ≥ 4 then
    let lastThree := parts.drop (parts.length - 3)
    { key := obj.key
      projectName := jsJoin '-' (parts.take (parts.length - 3))
      date := lastThree.getD 0 ""
      dataset := lastThree.getD 1 ""
      projectId := jsReplaceFirst (lastThree.getD 2 "") ".tar.gz"
      size := obj.size
      lastModified := obj.lastModified }
  else
    { key := obj.key, projectName := "", date := "", dataset := ""
      projectId := "", size := obj.size, lastModified := obj.lastModified }

/-- The sort comparator: when both parsed dates are non-empty (JS
truthiness of the strings), compare `b.date` against `a.date` (descending
by date); otherwise report a tie. -/
def archiveCmp (a b : ArchiveSummary) : Ordering :=
  if a.date ≠ "" ∧ b.date ≠ "" then jsCompare b.date a.date else .eq

/-- Keep `a` before `b` exactly when the comparator does not say `a`
comes strictly after `b`. -/
def archiveLe (a b : ArchiveSummary) : Bool :=
  archiveCmp a b ≠ .gt

/-- The filter step of the handler: the key is truthy (non-empty) and
ends in `.tar.gz`. -/
def isArchiveKey (obj : S3Object) : Bool :=
  obj.key ≠ "" && jsEndsWith obj.key ".tar.gz"

/-- The whole list-handler pipeline over a bucket listing: filter, map,
stable sort. -/
def listArchives (contents : List S3Object) : List ArchiveSummary :=
  stableSort archiveLe ((contents.filter isArchiveKey).map parseArchive)

/-! ### Backup status table

Model of the process-local `backupStatus` map.  Every `backupStatus.set`
in the source passes a whole object literal (except the progress handler,
which spreads the previous entry), so a write replaces the entry: fields
missing from the literal become `none`.
-/

inductive Status
  | pending
  | exporting
  | uploading
  | completed
  | failed
  deriving Repr, DecidableEq

structure StatusEntry where
  status : Status
  message : String
  progress : Option Nat := none
  error : Option String := none
  s3Location : Option String := none
  etag : Option String := none
  startTime : Nat
  deriving Repr, DecidableEq

instance : Inhabited StatusEntry :=
  ⟨{ status := .pending, message := "", startTime := 0 }⟩

/-- The status map, as an association list keyed by backup id. -/
abbrev StatusMap := List (String × StatusEntry)

/-- Model of `Map.prototype.set`: update in place or append. -/
def mapSet (m : StatusMap) (k : String) (v : StatusEntry) : StatusMap :=
  match m with
  | [] => [(k, v)]
  | (k', v') :: rest =>
    if k' = k then (k, v) :: rest else (k', v') :: mapSet rest k v

/-- Model of `Map.prototype.get`. -/
def mapGet (m : StatusMap) (k : String) : Option StatusEntry :=
  match m with
  | [] => none
  | (k', v') :: rest => if k' = k then some v' else mapGet rest k

/-! ### Backup orchestrator

The interpreter for one backup job.  The environment holds the three
storage variables (the empty string models an unset or empty variable,
both falsy in JS); the oracle fixes the outcome of every external call.
`clock` is the stream of `Date.now()` samples, consumed in call order
(`headD 0` / `tail`); the ISO `exportDate` string placed in the upload
metadata builds a `Date` object rather than calling `Date.now()` and is
not part of the status table, so it consumes nothing.
-/

structure Env where
  s3BucketName : String
  awsAccessKeyId : String
  awsSecretAccessKey : String
  deriving Repr, DecidableEq

structure Ext where
  /-- Outcome of the `client.fetch` connectivity probe (`some msg` means
  it threw with message `msg`). -/
  sanityFetchErr : Option String
  /-- Outcome of awaiting `exportDataset` (`some msg` means rejection). -/
  exportErr : Option String
  /-- Result of `fs.existsSync(filename)` after a successful export. -/
  fileExistsAfterExport : Bool
  /-- Size reported by `fs.statSync(filename)`; the source only logs it. -/
  fileSize : Nat
  /-- Percentages delivered by `httpUploadProgress` events (each event
  with truthy `loaded` and `total`), in order. -/
  progressEvents : List Nat
  /-- Outcome of awaiting `upload.done()`. -/
  uploadErr : Option String
  /-- ETag returned by a successful upload. -/
  uploadEtag : String
  /-- Outcome of `fs.unlinkSync` after a successful upload. -/
  unlinkAfterUploadErr : Option String
  /-- Result of `fs.existsSync(filename)` inside the catch block. -/
  fileExistsInCatch : Bool
  /-- Whether the cleanup `statSync`/`unlinkSync` inside the catch block
  throws; the source only logs such an error, so nothing reads this. -/
  cleanupThrows : Bool
  /-- Date component used by `createFilename` (its module `./utils/lib`
  is not part of the provided source). -/
  today : String
  deriving Repr, DecidableEq

/-- Modelled from the spec: `createFilename` is imported from
`./utils/lib`, which is missing from the provided source.  Spec section 6
fixes the produced archive name as
`projectName-date-dataset-projectId.tar.gz`; the date component is
supplied by the caller. -/
def createFilename (projectId dataset projectName date : String) : String :=
  projectName ++ "-" ++ date ++ "-" ++ dataset ++ "-" ++ projectId ++ ".tar.gz"

/-- The object literal written at job creation. -/
def pendingEntry (t : Nat) : StatusEntry :=
  { status := .pending, message := "Starting backup process...", startTime := t }

/-- The object literal written before the export starts. -/
def exportingEntry (t : Nat) : StatusEntry :=
  { status := .exporting, message := "Exporting data", startTime := t }

/-- The object literal written before the upload starts. -/
def uploadingEntry (t : Nat) : StatusEntry :=
  { status := .uploading, message := "Uploading to S3...", startTime := t }

/-- The object literal written on failure (both in the catch block of
`performBackup` and in the route-level rejection handler). -/
def failedEntry (msg : String) (t : Nat) : StatusEntry :=
  { status := .failed, message := "Backup failed", error := some msg
    startTime := t }

/-- The object literal written on success. -/
def completedEntry (loc etag : String) (t : Nat) : StatusEntry :=
  { status := .completed, message := "Backup completed successfully"
    s3Location := some loc, etag := some etag, startTime := t }

/-- Everything one run of `performBackup` (plus the route-level `.catch`)
produces: the final map, the ordered list of writes made to this job's
entry, invocation counts for the two collaborators, whether the catch
block attempted to delete the local file, the error rethrown out of
`performBackup` (if any), and the unused remainder of the clock. -/
structure JobResult where
  map : StatusMap
  writes : List StatusEntry
  exportCalls : Nat
  uploadCalls : Nat
  cleanupAttempted : Bool
  thrown : Option String
  clock : List Nat
  deriving Repr, DecidableEq

/-- The catch block of `performBackup`: best-effort cleanup of the local
file (its own failure is only logged, never consulted), then a full
rewrite of the entry to `failed` carrying the original error message,
then rethrow. -/
def catchBlock (ext : Ext) (m : StatusMap) (ws : List StatusEntry)
    (expCalls upCalls : Nat) (id errMsg : String) (clock : List Nat) :
    JobResult :=
  let e := failedEntry errMsg (clock.headD 0)
  { map := mapSet m id e
    writes := ws ++ [e]
    exportCalls := expCalls
    uploadCalls := upCalls
    cleanupAttempted := ext.fileExistsInCatch
    thrown := some errMsg
    clock := clock.tail }

/-- The `httpUploadProgress` handler, folded over the delivered events:
each event spreads the current entry and overwrites status, message and
progress.  (`backupStatus.get(backupId)!` is modelled with a default that
is unreachable in runs of the orchestrator, which always write the
`uploading` entry first.) -/
def progressFold (m : StatusMap) (ws : List StatusEntry) (id : String) :
    List Nat → StatusMap × List StatusEntry
  | [] => (m, ws)
  | pct :: rest =>
    let prev := (mapGet m id).getD default
    let e : StatusEntry :=
      { prev with
        status := .uploading
        message := "Uploading to S3... " ++ decString pct ++ "%"
        progress := some pct }
    progressFold (mapSet m id e) (ws ++ [e]) id rest

/-- The three environment checks at the top of `performBackup`, in source
order: the thrown message for the first falsy variable, `none` when all
three are set. -/
def validateEnv (env : Env) : Option String :=
  if env.s3BucketName = "" then
    some "S3_BUCKET_NAME environment variable is not set"
  else if env.awsAccessKeyId = "" then
    some "AWS_ACCESS_KEY_ID environment variable is not set"
  else if env.awsSecretAccessKey = "" then
    some "AWS_SECRET_ACCESS_KEY environment variable is not set"
  else none

/-- The body of `performBackup`: environment validation, connectivity
probe, export, the `uploading` write, the existence check on the export
file, the streamed upload with progress events, local-file deletion and
the `completed` write — with every thrown error routed to `catchBlock`. -/
def performBackupRun (env : Env) (ext : Ext) (m : StatusMap)
    (ws : List StatusEntry) (id projectId dataset projectName : String)
    (clock : List Nat) : JobResult :=
  match validateEnv env with
  | some msg => catchBlock ext m ws 0 0 id msg clock
  | none =>
    match ext.sanityFetchErr with
    | some msg =>
      catchBlock ext m ws 0 0 id ("Failed to connect to Sanity: " ++ msg) clock
    | none =>
      let filename := createFilename projectId dataset projectName ext.today
      let e1 := exportingEntry (clock.headD 0)
      let m := mapSet m id e1
      let ws := ws ++ [e1]
      let clock := clock.tail
      match ext.exportErr with
      | some msg => catchBlock ext m ws 1 0 id msg clock
      | none =>
        let e2 := uploadingEntry (clock.headD 0)
        let m := mapSet m id e2
        let ws := ws ++ [e2]
        let clock := clock.tail
        if ext.fileExistsAfterExport = false then
          catchBlock ext m ws 1 0 id ("Export file not found: " ++ filename) clock
        else
          let folded := progressFold m ws id ext.progressEvents
          let m := folded.1
          let ws := folded.2
          match ext.uploadErr with
          | some msg => catchBlock ext m ws 1 1 id msg clock
          | none =>
            match ext.unlinkAfterUploadErr with
            | some msg => catchBlock ext m ws 1 1 id msg clock
            | none =>
              let e3 := completedEntry filename ext.uploadEtag (clock.headD 0)
              { map := mapSet m id e3
                writes := ws ++ [e3]
                exportCalls := 1
                uploadCalls := 1
                cleanupAttempted := false
                thrown := none
                clock := clock.tail }

/-- Response of the start route. -/
structure StartResponse where
  status : String
  message : String
  backupId : String
  deriving Repr, DecidableEq

/-- The backup id generated by the start handler:
`projectId-dataset-Date.now()`. -/
def backupId (projectId dataset : String) (t : Nat) : String :=
  projectId ++ "-" ++ dataset ++ "-" ++ decString t

/-- What the start handler has done by the time it sends its response. -/
structure SyncResult where
  response : StartResponse
  map : StatusMap
  id : String
  entry : StatusEntry
  clock : List Nat
  deriving Repr, DecidableEq

/-- The id generation, `pending` write and response object of the start
route.  This captures only the handler's own actions; how much of
`performBackup` has also run by the time the response is sent is
captured by `responseTimeMap`. -/
def startBackupSync (m : StatusMap) (projectId dataset : String)
    (clock : List Nat) : SyncResult :=
  let t0 := clock.headD 0
  let clock := clock.tail
  let id := backupId projectId dataset t0
  let e := pendingEntry (clock.headD 0)
  { response := { status := "OK", message := "Backup started", backupId := id }
    map := mapSet m id e
    id := id
    entry := e
    clock := clock.tail }

/-- The whole write sequence one start request causes: the handler's
`pending` write, the `performBackup` run, and — when `performBackup`
rethrows — the route-level `.catch`, which writes a second `failed`
entry with the same error message.  This records the writes in their
true order; how much of the sequence precedes the HTTP response is a
separate question, answered by `responseTimeMap`. -/
def startBackupFull (env : Env) (ext : Ext) (m : StatusMap)
    (projectId dataset projectName : String) (clock : List Nat) :
    SyncResult × JobResult :=
  let sync := startBackupSync m projectId dataset clock
  let run := performBackupRun env ext sync.map [sync.entry] sync.id
    projectId dataset projectName sync.clock
  match run.thrown with
  | none => (sync, run)
  | some msg =>
    let e := failedEntry msg (run.clock.headD 0)
    (sync,
      { run with
        map := mapSet run.map sync.id e
        writes := run.writes ++ [e]
        clock := run.clock.tail })

/-- The status map at the moment the start route sends its response.
`performBackup` is called before `res.json` and, being an async
function, executes synchronously until its first `await`.  When a
storage variable is missing, the validation `throw` happens before any
`await` and is caught by the function's own catch block in that same
synchronous execution, which writes the `failed` entry (with the next
`Date.now()` sample) before control returns to the handler; the rethrow
only defers the route-level `.catch` write to a later microtask, after
the response.  On every other path the first write after `pending` (the
`exporting` one) follows the awaited connectivity probe, hence comes
after the response, so only the `pending` entry is visible. -/
def responseTimeMap (env : Env) (m : StatusMap)
    (projectId dataset : String) (clock : List Nat) : StatusMap :=
  let sync := startBackupSync m projectId dataset clock
  match validateEnv env with
  | some msg =>
    mapSet sync.map sync.id (failedEntry msg (sync.clock.headD 0))
  | none => sync.map

/-! ### Status query endpoint -/

/-- Response of `GET /api/backup/status/:backupId`: 404 when the id is
unknown, otherwise a snapshot with `duration = Date.now() - startTime`. -/
inductive StatusResponse
  | notFound (status message : String)
  | ok (status : Status) (message : String) (progress : Option Nat)
      (error : Option String) (s3Location : Option String)
      (etag : Option String) (startTime : Nat) (duration : Int)
  deriving Repr, DecidableEq

/-- The state field of a status response, when present. -/
def StatusResponse.state : StatusResponse → Option Status
  | .notFound _ _ => none
  | .ok s _ _ _ _ _ _ _ => some s

/-- The duration field of a status response, when present. -/
def StatusResponse.durationOut : StatusResponse → Option Int
  | .notFound _ _ => none
  | .ok _ _ _ _ _ _ _ d => some d

/-- Model of the status route. -/
def getStatus (m : StatusMap) (id : String) (now : Nat) : StatusResponse :=
  match mapGet m id with
  | none => .notFound "ERROR" "Backup not found"
  | some e =>
    .ok e.status e.message e.progress e.error e.s3Location e.etag
      e.startTime ((now : Int) - (e.startTime : Int))

/-! ### Download component

Model of the `GET /api/backups/download/:key` handler: check the bucket
variable, fetch the object (the oracle decides the outcome; a missing
object surfaces as a rejected `send`), and either stream it with the
download headers or answer 500 with the error message.  The handler never
inspects the key itself.
-/

structure S3Fetched where
  hasBody : Bool
  contentLength : Option Nat
  deriving Repr, DecidableEq

/-- Outcome of `s3Client.send(GetObjectCommand)`: a response object, or a
rejection with an error message (a nonexistent key rejects with the
NoSuchKey error). -/
inductive FetchOutcome
  | ok (obj : S3Fetched)
  | err (msg : String)
  deriving Repr, DecidableEq

/-- What the download handler answers: a 500 for a missing bucket
variable, a 500 with the caught error message, or a streamed body with
the download headers. -/
inductive DownloadResponse
  | config500 (error : String)
  | err500 (error : String)
  | stream (contentType : String) (contentDisposition : String)
      (contentLength : Option Nat)
  deriving Repr, DecidableEq

/-- Download response paired with whether the storage fetch was sent. -/
structure DownloadResult where
  response : DownloadResponse
  fetchInvoked : Bool
  deriving Repr, DecidableEq

/-- Model of `key.split('/').pop()`. -/
def lastSegment (key : String) : String :=
  (jsSplit key '/').getLastD ""

/-- The download handler. -/
def downloadArchive (bucket key : String) (fetch : FetchOutcome) :
    DownloadResult :=
  if bucket = "" then
    { response := .config500 "S3_BUCKET_NAME environment variable is not set"
      fetchInvoked := false }
  else
    match fetch with
    | .err msg => { response := .err500 msg, fetchInvoked := true }
    | .ok obj =>
      if obj.hasBody = false then
        { response := .err500 "No response body received from S3"
          fetchInvoked := true }
      else
        { response := .stream "application/gzip"
            ("attachment; filename=\"" ++ lastSegment key ++ "\"")
            obj.contentLength
          fetchInvoked := true }

/-! ### Concrete fixtures used by counterexamples and witnesses -/

/-- The January object of claim C1 (S3 lists keys lexicographically, so
it precedes the February object in `Contents`). -/
def janObj : S3Object := ⟨"acme-2025-01-15-production-abc123.tar.gz", 10, 1⟩

/-- The February object of claim C1. -/
def febObj : S3Object := ⟨"acme-2025-02-01-staging-def456.tar.gz", 20, 2⟩

/-- Fixture: all three storage variables set. -/
def envOk : Env := ⟨"bucket", "ak", "sk"⟩

/-- Fixture: no bucket configured. -/
def envNoBucket : Env := ⟨"", "ak", "sk"⟩

/-- Fixture: every external call succeeds. -/
def extOk : Ext :=
  { sanityFetchErr := none
    exportErr := none
    fileExistsAfterExport := true
    fileSize := 100
    progressEvents := []
    uploadErr := none
    uploadEtag := "etag1"
    unlinkAfterUploadErr := none
    fileExistsInCatch := false
    cleanupThrows := false
    today := "2025-01-15" }

/-- Fixture: export succeeds but produces a zero-byte file. -/
def extEmptyFile : Ext := { extOk with fileSize := 0 }

/-- Fixture: the export collaborator rejects; the partial archive exists
and its cleanup deletion itself throws. -/
def extExportFail : Ext :=
  { extOk with
    exportErr := some "export blew up"
    fileExistsInCatch := true
    cleanupThrows := true }

/-- Fixture: export resolves but leaves no output file on disk. -/
def extNoFile : Ext := { extOk with fileExistsAfterExport := false }

end SanityBackups

namespace SanityBackups

/-! ### General lemmas -/

theorem mem_stableInsert {le : α → α → Bool} {x a : α} {l : List α} :
    a ∈ stableInsert le x l ↔ a = x ∨ a ∈ l := by
  induction l with
  | nil => simp [stableInsert]
  | cons y ys ih =>
    by_cases h : le x y = true
    · simp [stableInsert, h]
    · simp [stableInsert, h, ih]
      tauto

theorem mem_stableSort {le : α → α → Bool} {a : α} {l : List α} :
    a ∈ stableSort le l ↔ a ∈ l := by
  induction l with
  | nil => simp [stableSort]
  | cons x xs ih => simp [stableSort, mem_stableInsert, ih]

theorem decDigits_eq_digits {fuel n : Nat} (h : n ≤ fuel) :
    decDigits fuel n = Nat.digits 10 n := by
  induction fuel generalizing n with
  | zero =>
    interval_cases n
    simp [decDigits]
  | succ fuel ih =>
    by_cases h0 : n = 0
    · simp [decDigits, h0]
    · have hlt : n / 10 < n := Nat.div_lt_self (Nat.pos_of_ne_zero h0) (by norm_num)
      rw [decDigits, if_neg h0, ih (by omega),
        Nat.digits_def' (b := 10) (by norm_num) (Nat.pos_of_ne_zero h0)]

theorem decCharVal_decDigitChar {d : Nat} (h : d < 10) :
    decCharVal (decDigitChar d) = d := by
  interval_cases d <;> rfl

theorem map_decDigitChar_inj : ∀ {l1 l2 : List Nat},
    (∀ d ∈ l1, d < 10) → (∀ d ∈ l2, d < 10) →
    l1.map decDigitChar = l2.map decDigitChar → l1 = l2 := by
  intro l1
  induction l1 with
  | nil =>
    intro l2 _ _ hmap
    cases l2 with
    | nil => rfl
    | cons b bs => simp at hmap
  | cons a as ih =>
    intro l2 h1 h2 hmap
    cases l2 with
    | nil => simp at hmap
    | cons b bs =>
      simp only [List.map_cons, List.cons.injEq] at hmap
      have ha : a < 10 := h1 a (by simp)
      have hb : b < 10 := h2 b (by simp)
      have hab : a = b := by
        have hv := congrArg decCharVal hmap.1
        rwa [decCharVal_decDigitChar ha, decCharVal_decDigitChar hb] at hv
      have htail := ih (fun d hd => h1 d (by simp [hd]))
        (fun d hd => h2 d (by simp [hd])) hmap.2
      rw [hab, htail]

theorem decString_data_of_ne_zero {n : Nat} (hn : n ≠ 0) :
    (decString n).data = (Nat.digits 10 n).reverse.map decDigitChar := by
  unfold decString
  rw [if_neg hn, decDigits_eq_digits (le_refl n)]

theorem decString_ne_decString_zero {m : Nat} (hm : m ≠ 0) :
    decString m ≠ decString 0 := by
  intro h
  have hdata := congrArg String.data h
  rw [decString_data_of_ne_zero hm] at hdata
  have hz : (decString 0).data = ['0'] := by decide
  rw [hz] at hdata
  obtain ⟨d, ds, hds⟩ : ∃ d ds, (Nat.digits 10 m).reverse = d :: ds := by
    rcases hrev : (Nat.digits 10 m).reverse with _ | ⟨d, ds⟩
    · have : Nat.digits 10 m = [] := by
        have := congrArg List.reverse hrev
        simpa using this
      exact absurd this (Nat.digits_ne_nil_iff_ne_zero.mpr hm)
    · exact ⟨d, ds, rfl⟩
  rw [hds] at hdata
  simp only [List.map_cons, List.cons.injEq] at hdata
  have hds_nil : ds = [] := by
    have := hdata.2
    cases ds with
    | nil => rfl
    | cons x xs => simp at this
  have hdigits : Nat.digits 10 m = [d] := by
    have := congrArg List.reverse hds
    simpa [hds_nil] using this
  have hdlt : d < 10 :=
    Nat.digits_lt_base (by norm_num) (by rw [hdigits]; simp)
  have hd0 : d = 0 := by
    have hv := congrArg decCharVal hdata.1
    rwa [decCharVal_decDigitChar hdlt, show decCharVal '0' = 0 from rfl] at hv
  have hlast := Nat.getLast_digit_ne_zero 10 hm
  revert hlast
  simp [hdigits, hd0]

theorem decString_injective : Function.Injective decString := by
  intro n m hnm
  by_cases hn : n = 0 <;> by_cases hm : m = 0
  · rw [hn, hm]
  · exact absurd (hn ▸ hnm).symm (decString_ne_decString_zero hm)
  · exact absurd (hm ▸ hnm) (decString_ne_decString_zero hn)
  · have hdata := congrArg String.data hnm
    rw [decString_data_of_ne_zero hn, decString_data_of_ne_zero hm] at hdata
    have hrev := map_decDigitChar_inj
      (fun d hd => Nat.digits_lt_base (by norm_num) (by simpa using hd))
      (fun d hd => Nat.digits_lt_base (by norm_num) (by simpa using hd)) hdata
    have hdig : Nat.digits 10 n = Nat.digits 10 m := by
      have := congrArg List.reverse hrev
      simpa using this
    have := congrArg (Nat.ofDigits 10) hdig
    rwa [Nat.ofDigits_digits, Nat.ofDigits_digits] at this

theorem mapGet_mapSet_self (m : StatusMap) (k : String) (v : StatusEntry) :
    mapGet (mapSet m k v) k = some v := by
  induction m with
  | nil => simp [mapSet, mapGet]
  | cons p rest ih =>
    by_cases h : p.1 = k <;> simp [mapSet, mapGet, h, ih]

theorem progressFold_writes (id : String) :
    ∀ (ps : List Nat) (m : StatusMap) (ws : List StatusEntry),
      ∃ extra, (progressFold m ws id ps).2 = ws ++ extra ∧
        ∀ x ∈ extra, x.status = .uploading := by
  intro ps
  induction ps with
  | nil =>
    intro m ws
    exact ⟨[], by simp [progressFold], by simp⟩
  | cons pct rest ih =>
    intro m ws
    obtain ⟨extra, he, hs⟩ := ih
      (mapSet m id
        { (mapGet m id).getD default with
          status := .uploading
          message := "Uploading to S3... " ++ decString pct ++ "%"
          progress := some pct })
      (ws ++ [{ (mapGet m id).getD default with
          status := .uploading
          message := "Uploading to S3... " ++ decString pct ++ "%"
          progress := some pct }])
    refine ⟨{ (mapGet m id).getD default with
          status := .uploading
          message := "Uploading to S3... " ++ decString pct ++ "%"
          progress := some pct } :: extra, ?_, ?_⟩
    · rw [progressFold, he]
      simp
    · intro x hx
      cases hx with
      | head => rfl
      | tail _ h => exact hs x h

/-- Terminal-write shape of one `performBackupRun`: the writes it adds to
`ws` are a run of non-terminal entries followed by exactly one terminal
entry — `completed` with nothing thrown, or `failed` carrying exactly the
rethrown message. -/
theorem performBackupRun_shape (env : Env) (ext : Ext) (m : StatusMap)
    (ws : List StatusEntry) (id p d pn : String) (clock : List Nat) :
    ∃ pre : List StatusEntry,
      (∀ x ∈ pre, x.status ≠ .completed ∧ x.status ≠ .failed) ∧
      ((∃ c, (performBackupRun env ext m ws id p d pn clock).writes =
            ws ++ pre ++ [c] ∧ c.status = .completed ∧
          (performBackupRun env ext m ws id p d pn clock).thrown = none) ∨
       (∃ f msg, (performBackupRun env ext m ws id p d pn clock).writes =
            ws ++ pre ++ [f] ∧ f.status = .failed ∧ f.error = some msg ∧
          (performBackupRun env ext m ws id p d pn clock).thrown = some msg)) := by
  rcases hv : validateEnv env with _ | msg
  case some =>
    refine ⟨[], by simp,
      Or.inr ⟨failedEntry msg (clock.headD 0), msg, ?_, rfl, rfl, ?_⟩⟩
    · simp [performBackupRun, hv, catchBlock]
    · simp [performBackupRun, hv, catchBlock]
  case none =>
  rcases hsan : ext.sanityFetchErr with _ | msg
  case some =>
    refine ⟨[], by simp,
      Or.inr ⟨failedEntry ("Failed to connect to Sanity: " ++ msg) (clock.headD 0),
        "Failed to connect to Sanity: " ++ msg, ?_, rfl, rfl, ?_⟩⟩
    · simp [performBackupRun, hv, hsan, catchBlock]
    · simp [performBackupRun, hv, hsan, catchBlock]
  case none =>
  rcases hexp : ext.exportErr with _ | msg
  case some =>
    refine ⟨[exportingEntry (clock.headD 0)],
      ?_, Or.inr ⟨failedEntry msg (clock.tail.headD 0), msg, ?_, rfl, rfl, ?_⟩⟩
    · intro x hx
      simp only [List.mem_singleton] at hx
      rw [hx]
      exact ⟨by simp [exportingEntry], by simp [exportingEntry]⟩
    · simp [performBackupRun, hv, hsan, hexp, catchBlock]
    · simp [performBackupRun, hv, hsan, hexp, catchBlock]
  case none =>
  rcases hfile : ext.fileExistsAfterExport with _ | _
  case false =>
    refine ⟨[exportingEntry (clock.headD 0), uploadingEntry (clock.tail.headD 0)],
      ?_, Or.inr ⟨failedEntry
          ("Export file not found: " ++ createFilename p d pn ext.today)
          (clock.tail.tail.headD 0),
        "Export file not found: " ++ createFilename p d pn ext.today,
        ?_, rfl, rfl, ?_⟩⟩
    · intro x hx
      simp only [List.mem_cons, List.not_mem_nil, or_false] at hx
      rcases hx with rfl | rfl
      · exact ⟨by simp [exportingEntry], by simp [exportingEntry]⟩
      · exact ⟨by simp [uploadingEntry], by simp [uploadingEntry]⟩
    · simp [performBackupRun, hv, hsan, hexp, hfile, catchBlock]
    · simp [performBackupRun, hv, hsan, hexp, hfile, catchBlock]
  case true =>
  obtain ⟨extra, he, hextra⟩ := progressFold_writes id ext.progressEvents
    (mapSet (mapSet m id (exportingEntry (clock.headD 0))) id
      (uploadingEntry (clock.tail.headD 0)))
    ((ws ++ [exportingEntry (clock.headD 0)]) ++ [uploadingEntry (clock.tail.headD 0)])
  have hpre : ∀ x ∈ [exportingEntry (clock.headD 0),
      uploadingEntry (clock.tail.headD 0)] ++ extra,
      x.status ≠ .completed ∧ x.status ≠ .failed := by
    intro x hx
    rcases List.mem_append.mp hx with h | h
    · simp only [List.mem_cons, List.not_mem_nil, or_false] at h
      rcases h with rfl | rfl
      · exact ⟨by simp [exportingEntry], by simp [exportingEntry]⟩
      · exact ⟨by simp [uploadingEntry], by simp [uploadingEntry]⟩
    · rw [hextra x h]
      exact ⟨by simp, by simp⟩
  rcases hup : ext.uploadErr with _ | msg
  case some =>
    refine ⟨[exportingEntry (clock.headD 0), uploadingEntry (clock.tail.headD 0)] ++ extra,
      hpre, Or.inr ⟨failedEntry msg (clock.tail.tail.headD 0), msg, ?_, rfl, rfl, ?_⟩⟩
    · simp only [performBackupRun, hv, hsan, hexp, hfile, hup, catchBlock]
      rw [he]
      simp
    · simp [performBackupRun, hv, hsan, hexp, hfile, hup, catchBlock]
  case none =>
  rcases hun : ext.unlinkAfterUploadErr with _ | msg
  case some =>
    refine ⟨[exportingEntry (clock.headD 0), uploadingEntry (clock.tail.headD 0)] ++ extra,
      hpre, Or.inr ⟨failedEntry msg (clock.tail.tail.headD 0), msg, ?_, rfl, rfl, ?_⟩⟩
    · simp only [performBackupRun, hv, hsan, hexp, hfile, hup, hun, catchBlock]
      rw [he]
      simp
    · simp [performBackupRun, hv, hsan, hexp, hfile, hup, hun, catchBlock]
  case none =>
  refine ⟨[exportingEntry (clock.headD 0), uploadingEntry (clock.tail.headD 0)] ++ extra,
    hpre, Or.inl ⟨completedEntry (createFilename p d pn ext.today) ext.uploadEtag
      (clock.tail.tail.headD 0), ?_, rfl, ?_⟩⟩
  · simp only [performBackupRun, hv, hsan, hexp, hfile, hup, hun]
    rw [he]
    simp
  · simp [performBackupRun, hv, hsan, hexp, hfile, hup, hun]

/-- A rethrowing run has attempted cleanup exactly when the file existed
in the catch block. -/
theorem performBackupRun_catch_data (env : Env) (ext : Ext) (m : StatusMap)
    (ws : List StatusEntry) (id p d pn : String) (clock : List Nat)
    (msg : String)
    (h : (performBackupRun env ext m ws id p d pn clock).thrown = some msg) :
    (performBackupRun env ext m ws id p d pn clock).cleanupAttempted =
      ext.fileExistsInCatch := by
  rcases hv : validateEnv env with _ | vmsg
  case some => simp [performBackupRun, hv, catchBlock]
  rcases hsan : ext.sanityFetchErr with _ | smsg
  case some => simp [performBackupRun, hv, hsan, catchBlock]
  rcases hexp : ext.exportErr with _ | emsg
  case some => simp [performBackupRun, hv, hsan, hexp, catchBlock]
  rcases hfile : ext.fileExistsAfterExport with _ | _
  case false => simp [performBackupRun, hv, hsan, hexp, hfile, catchBlock]
  rcases hup : ext.uploadErr with _ | umsg
  case some => simp [performBackupRun, hv, hsan, hexp, hfile, hup, catchBlock]
  rcases hun : ext.unlinkAfterUploadErr with _ | nmsg
  case some => simp [performBackupRun, hv, hsan, hexp, hfile, hup, hun, catchBlock]
  exfalso
  simp [performBackupRun, hv, hsan, hexp, hfile, hup, hun] at h

end SanityBackups

namespace SanityBackups

/-! ### Claim C1 -/

/-- C1, counterexample: on a bucket holding exactly the two objects of the
claim (in the lexicographic order S3 lists them), the listing returns the
January entry first, not the February one: splitting on every hyphen puts
only the day component in the date field ("15" for January, "01" for
February) and "15" sorts before "01" in descending string order, so the
claim that the February entry comes first is false. -/
theorem C1_counterexample :
    (listArchives [janObj, febObj]).map (fun s => s.key) =
      [janObj.key, febObj.key] ∧
    (listArchives [janObj, febObj]).head?.map (fun s => s.key) ≠
      some febObj.key := by
  decide

/-- C1, amended: both objects are returned, and they are sorted
string-descending by the parsed date segment; under the
rightmost-three-hyphen-segment parse that segment is the day component
("15" and "01"), so the January entry comes first whatever order the
bucket listing delivers the two objects in. -/
theorem C1_amended :
    (listArchives [janObj, febObj]).map (fun s => s.key) =
      [janObj.key, febObj.key] ∧
    (listArchives [febObj, janObj]).map (fun s => s.key) =
      [janObj.key, febObj.key] ∧
    (listArchives [janObj, febObj]).map (fun s => s.date) = ["15", "01"] := by
  decide

/-! ### Claim C2 -/

/-- C2, counterexample: in a run whose pre-flight validation fails, the
job's entry is written again after it has already reached the terminal
`failed` state — the catch block inside `performBackup` writes `failed`,
the rethrow triggers the route-level rejection handler, and that handler
writes `failed` once more with a fresh `startTime` — so the entry is not
immutable after reaching a terminal state. -/
theorem C2_counterexample :
    ((startBackupFull envNoBucket extOk [] "p" "d" "proj" [0, 1, 2, 3]).2.writes.map
        StatusEntry.status = [.pending, .failed, .failed]) ∧
    (startBackupFull envNoBucket extOk [] "p" "d" "proj"
        [0, 1, 2, 3]).2.writes.getD 2 default ≠
      (startBackupFull envNoBucket extOk [] "p" "d" "proj"
        [0, 1, 2, 3]).2.writes.getD 1 default := by
  decide

/-- C2, amended: nothing is ever written after a `completed` entry, but a
failing job receives two consecutive `failed` writes (the catch block of
`performBackup`, then the route-level rejection handler) carrying the
same error message, and only then does the entry stop changing; the
status never changes after first becoming terminal, yet the `failed`
entry itself is overwritten exactly once more. -/
theorem C2_amended (env : Env) (ext : Ext) (m : StatusMap)
    (p d pn : String) (clock : List Nat) :
    ∃ pre : List StatusEntry,
      (∀ x ∈ pre, x.status ≠ .completed ∧ x.status ≠ .failed) ∧
      ((∃ c, (startBackupFull env ext m p d pn clock).2.writes = pre ++ [c] ∧
          c.status = .completed) ∨
       (∃ f1 f2, (startBackupFull env ext m p d pn clock).2.writes =
            pre ++ [f1, f2] ∧
          f1.status = .failed ∧ f2.status = .failed ∧ f1.error = f2.error)) := by
  obtain ⟨pre, hpre, hcase⟩ := performBackupRun_shape env ext
    (startBackupSync m p d clock).map [(startBackupSync m p d clock).entry]
    (startBackupSync m p d clock).id p d pn (startBackupSync m p d clock).clock
  have hentry : (startBackupSync m p d clock).entry =
      pendingEntry (clock.tail.headD 0) := by
    simp [startBackupSync]
  have hpend : ∀ x ∈ (startBackupSync m p d clock).entry :: pre,
      x.status ≠ .completed ∧ x.status ≠ .failed := by
    intro x hx
    rcases List.mem_cons.mp hx with rfl | h
    · rw [hentry]
      exact ⟨by simp [pendingEntry], by simp [pendingEntry]⟩
    · exact hpre x h
  rcases hcase with ⟨c, hw, hc, hthrown⟩ | ⟨f, msg, hw, hf, herr, hthrown⟩
  · refine ⟨(startBackupSync m p d clock).entry :: pre, hpend, Or.inl ⟨c, ?_, hc⟩⟩
    simp only [startBackupFull, hthrown]
    rw [hw]
    simp
  · refine ⟨(startBackupSync m p d clock).entry :: pre, hpend,
      Or.inr ⟨f, failedEntry msg ((performBackupRun env ext
          (startBackupSync m p d clock).map [(startBackupSync m p d clock).entry]
          (startBackupSync m p d clock).id p d pn
          (startBackupSync m p d clock).clock).clock.headD 0),
        ?_, hf, rfl, by rw [herr]; rfl⟩⟩
    simp only [startBackupFull, hthrown]
    rw [hw]
    simp

/-! ### Claim C3 -/

/-- C3, counterexample: in a fully successful run with distinct clock
samples, every state transition overwrites `startTime` with its own
timestamp (the four writes carry 1, 2, 3, 4), and the status endpoint
reports `duration = now - 4` (time since completion), not `now - 1`
(time since job creation), contradicting the claim that `startTime` is
left unchanged by later transitions. -/
theorem C3_counterexample :
    ((startBackupFull envOk extOk [] "p" "d" "proj" [0, 1, 2, 3, 4]).2.writes.map
        StatusEntry.startTime = [1, 2, 3, 4]) ∧
    (getStatus (startBackupFull envOk extOk [] "p" "d" "proj"
        [0, 1, 2, 3, 4]).2.map "p-d-0" 100).durationOut = some 96 ∧
    (getStatus (startBackupFull envOk extOk [] "p" "d" "proj"
        [0, 1, 2, 3, 4]).2.map "p-d-0" 100).durationOut ≠ some 99 := by
  decide

/-- C3, amended: every full status write stamps `startTime` with the
`Date.now()` sample taken at that write, so after each transition the
stored `startTime` is the transition's own timestamp; for a successful
job the final entry carries the completion-time sample `t4` and
`getStatus` reports `duration = now - t4`, the time since the most recent
transition rather than since job creation. -/
theorem C3_amended (env : Env) (ext : Ext) (m : StatusMap)
    (p d pn : String) (t0 t1 t2 t3 t4 : Nat) (rest : List Nat) (now : Nat)
    (hv : validateEnv env = none) (hsan : ext.sanityFetchErr = none)
    (hexp : ext.exportErr = none) (hfile : ext.fileExistsAfterExport = true)
    (hup : ext.uploadErr = none) (hun : ext.unlinkAfterUploadErr = none) :
    (startBackupFull env ext m p d pn
        (t0 :: t1 :: t2 :: t3 :: t4 :: rest)).2.writes.take 3 =
      [pendingEntry t1, exportingEntry t2, uploadingEntry t3] ∧
    mapGet (startBackupFull env ext m p d pn
        (t0 :: t1 :: t2 :: t3 :: t4 :: rest)).2.map
        (startBackupFull env ext m p d pn
          (t0 :: t1 :: t2 :: t3 :: t4 :: rest)).1.id =
      some (completedEntry (createFilename p d pn ext.today) ext.uploadEtag t4) ∧
    (getStatus (startBackupFull env ext m p d pn
          (t0 :: t1 :: t2 :: t3 :: t4 :: rest)).2.map
        (startBackupFull env ext m p d pn
          (t0 :: t1 :: t2 :: t3 :: t4 :: rest)).1.id now).durationOut =
      some ((now : Int) - (t4 : Int)) := by
  obtain ⟨extra, he, hextra⟩ := progressFold_writes
    (backupId p d t0) ext.progressEvents
    (mapSet (mapSet (mapSet m (backupId p d t0) (pendingEntry t1))
        (backupId p d t0) (exportingEntry t2)) (backupId p d t0)
      (uploadingEntry t3))
    [pendingEntry t1, exportingEntry t2, uploadingEntry t3]
  refine ⟨?_, ?_, ?_⟩
  · simp only [startBackupFull, startBackupSync, performBackupRun, hv, hsan,
      hexp, hfile, hup, hun, List.headD_cons, List.tail_cons,
      List.singleton_append, List.cons_append, List.nil_append,
      Bool.true_eq_false, if_false]
    rw [he]
    simp
  · simp only [startBackupFull, startBackupSync, performBackupRun, hv, hsan,
      hexp, hfile, hup, hun, List.headD_cons, List.tail_cons,
      List.singleton_append, List.cons_append, List.nil_append,
      Bool.true_eq_false, if_false]
    exact mapGet_mapSet_self _ _ _
  · simp only [startBackupFull, startBackupSync, performBackupRun, hv, hsan,
      hexp, hfile, hup, hun, List.headD_cons, List.tail_cons,
      List.singleton_append, List.cons_append, List.nil_append,
      Bool.true_eq_false, if_false, getStatus]
    rw [mapGet_mapSet_self]
    rfl

/-- C3, witness for the amended theorem at a concrete successful run. -/
theorem C3_amended_witness :
    validateEnv envOk = none ∧ extOk.sanityFetchErr = none ∧
    extOk.exportErr = none ∧ extOk.fileExistsAfterExport = true ∧
    extOk.uploadErr = none ∧ extOk.unlinkAfterUploadErr = none ∧
    ((startBackupFull envOk extOk [] "p" "d" "proj"
        (0 :: 1 :: 2 :: 3 :: 4 :: [])).2.writes.take 3 =
      [pendingEntry 1, exportingEntry 2, uploadingEntry 3] ∧
    mapGet (startBackupFull envOk extOk [] "p" "d" "proj"
        (0 :: 1 :: 2 :: 3 :: 4 :: [])).2.map
        (startBackupFull envOk extOk [] "p" "d" "proj"
          (0 :: 1 :: 2 :: 3 :: 4 :: [])).1.id =
      some (completedEntry (createFilename "p" "d" "proj" extOk.today)
        extOk.uploadEtag 4) ∧
    (getStatus (startBackupFull envOk extOk [] "p" "d" "proj"
          (0 :: 1 :: 2 :: 3 :: 4 :: [])).2.map
        (startBackupFull envOk extOk [] "p" "d" "proj"
          (0 :: 1 :: 2 :: 3 :: 4 :: [])).1.id 100).durationOut =
      some ((100 : Int) - (4 : Int))) :=
  ⟨by decide, by decide, by decide, by decide, by decide, by decide,
    C3_amended envOk extOk [] "p" "d" "proj" 0 1 2 3 4 [] 100
      (by decide) (by decide) (by decide) (by decide) (by decide) (by decide)⟩

end SanityBackups

namespace SanityBackups

/-! ### Claim C4 -/

/-- Coherence of `responseTimeMap` with the full run: on a validation
failure the map visible at response time is exactly the map after
`performBackup`'s own catch write — the run's map before the route-level
`.catch` is applied — and on a passing validation it is the map right
after the `pending` write, `performBackup` not having written yet. -/
theorem responseTimeMap_coherent (env : Env) (ext : Ext) (m : StatusMap)
    (p d pn : String) (clock : List Nat) :
    (∀ msg, validateEnv env = some msg →
      responseTimeMap env m p d clock =
        (performBackupRun env ext (startBackupSync m p d clock).map
          [(startBackupSync m p d clock).entry] (startBackupSync m p d clock).id
          p d pn (startBackupSync m p d clock).clock).map) ∧
    (validateEnv env = none →
      responseTimeMap env m p d clock = (startBackupSync m p d clock).map) := by
  constructor
  · intro msg hv
    simp [responseTimeMap, performBackupRun, hv, catchBlock]
  · intro hv
    simp [responseTimeMap, hv]

/-- C4, counterexample: for an invocation whose pre-flight storage
validation fails, `performBackup`'s catch block writes the `failed`
entry synchronously — before its first `await`, hence before the
response is sent — so a status query performed immediately after
`startBackup` returns reports `failed`, not `pending`, refuting the
claim's "for every invocation". -/
theorem C4_counterexample :
    validateEnv envNoBucket =
      some "S3_BUCKET_NAME environment variable is not set" ∧
    (getStatus (responseTimeMap envNoBucket [] "p" "d" [0, 1, 2, 3])
      (startBackupSync [] "p" "d" [0, 1, 2, 3]).id 5).state = some .failed ∧
    (getStatus (responseTimeMap envNoBucket [] "p" "d" [0, 1, 2, 3])
      (startBackupSync [] "p" "d" [0, 1, 2, 3]).id 5).state ≠
      some .pending := by
  decide

/-- C4, amended: the start handler records the `pending` entry for the
generated id before responding and returns that id without waiting for
the job; for every invocation whose pre-flight storage validation
passes, the map at response time holds exactly the `pending` entry
(every later write follows an `await`), so an immediate status query
reports `pending`.  (When validation fails, the entry already reads
`failed` at response time — see the counterexample.) -/
theorem C4_amended (env : Env) (m : StatusMap) (p d : String)
    (clock : List Nat) (now : Nat) (hv : validateEnv env = none) :
    (startBackupSync m p d clock).response.backupId =
      (startBackupSync m p d clock).id ∧
    mapGet (responseTimeMap env m p d clock) (startBackupSync m p d clock).id =
      some (pendingEntry (clock.tail.headD 0)) ∧
    (getStatus (responseTimeMap env m p d clock)
      (startBackupSync m p d clock).id now).state = some .pending := by
  refine ⟨rfl, ?_, ?_⟩
  · simp [responseTimeMap, hv, startBackupSync, mapGet_mapSet_self]
  · simp [getStatus, responseTimeMap, hv, startBackupSync, mapGet_mapSet_self,
      StatusResponse.state, pendingEntry]

/-- C4, witness for the amended theorem: with all storage variables set,
the response-time map reports `pending`. -/
theorem C4_amended_witness :
    validateEnv envOk = none ∧
    ((startBackupSync [] "p" "d" [0, 1]).response.backupId =
      (startBackupSync [] "p" "d" [0, 1]).id ∧
    mapGet (responseTimeMap envOk [] "p" "d" [0, 1])
        (startBackupSync [] "p" "d" [0, 1]).id =
      some (pendingEntry ([0, 1].tail.headD 0)) ∧
    (getStatus (responseTimeMap envOk [] "p" "d" [0, 1])
      (startBackupSync [] "p" "d" [0, 1]).id 9).state = some .pending) :=
  ⟨by decide, C4_amended envOk [] "p" "d" [0, 1] 9 (by decide)⟩

/-! ### Claim C5 -/

/-- C5: when any of the three storage variables is absent, the job never
invokes the export collaborator (nor the upload), and its entry ends as
`failed` carrying one of the three descriptive configuration messages. -/
theorem C5_validation_skips_export (env : Env) (ext : Ext) (m : StatusMap)
    (p d pn : String) (clock : List Nat)
    (h : env.s3BucketName = "" ∨ env.awsAccessKeyId = "" ∨
      env.awsSecretAccessKey = "") :
    (startBackupFull env ext m p d pn clock).2.exportCalls = 0 ∧
    (startBackupFull env ext m p d pn clock).2.uploadCalls = 0 ∧
    ∃ msg t, mapGet (startBackupFull env ext m p d pn clock).2.map
        (startBackupFull env ext m p d pn clock).1.id =
        some (failedEntry msg t) ∧
      (msg = "S3_BUCKET_NAME environment variable is not set" ∨
       msg = "AWS_ACCESS_KEY_ID environment variable is not set" ∨
       msg = "AWS_SECRET_ACCESS_KEY environment variable is not set") := by
  obtain ⟨msg, hv, hmsg⟩ : ∃ msg, validateEnv env = some msg ∧
      (msg = "S3_BUCKET_NAME environment variable is not set" ∨
       msg = "AWS_ACCESS_KEY_ID environment variable is not set" ∨
       msg = "AWS_SECRET_ACCESS_KEY environment variable is not set") := by
    unfold validateEnv
    by_cases h1 : env.s3BucketName = ""
    · exact ⟨_, by simp [h1], Or.inl rfl⟩
    · by_cases h2 : env.awsAccessKeyId = ""
      · exact ⟨_, by simp [h1, h2], Or.inr (Or.inl rfl)⟩
      · by_cases h3 : env.awsSecretAccessKey = ""
        · exact ⟨_, by simp [h1, h2, h3], Or.inr (Or.inr rfl)⟩
        · rcases h with h | h | h <;> simp_all
  refine ⟨?_, ?_, msg, clock.tail.tail.tail.headD 0, ?_, hmsg⟩
  · simp [startBackupFull, performBackupRun, hv, catchBlock]
  · simp [startBackupFull, performBackupRun, hv, catchBlock]
  · simp [startBackupFull, startBackupSync, performBackupRun, hv, catchBlock,
      mapGet_mapSet_self]

/-- C5, witness: a run with no bucket configured. -/
theorem C5_validation_skips_export_witness :
    (envNoBucket.s3BucketName = "" ∨ envNoBucket.awsAccessKeyId = "" ∨
      envNoBucket.awsSecretAccessKey = "") ∧
    ((startBackupFull envNoBucket extOk [] "p" "d" "proj"
        [0, 1, 2, 3]).2.exportCalls = 0 ∧
     (startBackupFull envNoBucket extOk [] "p" "d" "proj"
        [0, 1, 2, 3]).2.uploadCalls = 0 ∧
     ∃ msg t, mapGet (startBackupFull envNoBucket extOk [] "p" "d" "proj"
          [0, 1, 2, 3]).2.map
          (startBackupFull envNoBucket extOk [] "p" "d" "proj"
            [0, 1, 2, 3]).1.id =
          some (failedEntry msg t) ∧
        (msg = "S3_BUCKET_NAME environment variable is not set" ∨
         msg = "AWS_ACCESS_KEY_ID environment variable is not set" ∨
         msg = "AWS_SECRET_ACCESS_KEY environment variable is not set")) :=
  ⟨Or.inl (by decide),
    C5_validation_skips_export envNoBucket extOk [] "p" "d" "proj" [0, 1, 2, 3]
      (Or.inl (by decide))⟩

/-! ### Claim C6 -/

/-- C6: whenever `performBackup` rethrows an error with message `msg`,
the job's final entry is `failed` carrying exactly that original message
(this holds for every oracle, in particular when the cleanup deletion
itself throws — the `cleanupThrows` flag is never consulted), and the
catch block attempts the local-file deletion exactly when the file
exists. -/
theorem C6_failed_carries_original_error (env : Env) (ext : Ext)
    (m : StatusMap) (p d pn : String) (clock : List Nat) (msg : String)
    (h : (startBackupFull env ext m p d pn clock).2.thrown = some msg) :
    (∃ t, mapGet (startBackupFull env ext m p d pn clock).2.map
        (startBackupFull env ext m p d pn clock).1.id =
        some (failedEntry msg t)) ∧
    (startBackupFull env ext m p d pn clock).2.cleanupAttempted =
      ext.fileExistsInCatch := by
  rcases hr : (performBackupRun env ext (startBackupSync m p d clock).map
      [(startBackupSync m p d clock).entry] (startBackupSync m p d clock).id
      p d pn (startBackupSync m p d clock).clock).thrown with _ | msg'
  · exfalso
    simp only [startBackupFull, hr] at h
    exact absurd (hr ▸ h) (by simp [hr])
  · have hmm : msg' = msg := by
      simp only [startBackupFull, hr] at h
      exact Option.some_injective _ h
    subst hmm
    constructor
    · refine ⟨(performBackupRun env ext (startBackupSync m p d clock).map
          [(startBackupSync m p d clock).entry] (startBackupSync m p d clock).id
          p d pn (startBackupSync m p d clock).clock).clock.headD 0, ?_⟩
      simp only [startBackupFull, hr]
      exact mapGet_mapSet_self _ _ _
    · simp only [startBackupFull, hr]
      exact performBackupRun_catch_data env ext _ _ _ p d pn _ msg' hr

/-- C6, witness: a failing export whose partial archive exists and whose
cleanup deletion itself throws still records the original export error. -/
theorem C6_failed_carries_original_error_witness :
    ((startBackupFull envOk extExportFail [] "p" "d" "proj"
        [0, 1, 2, 3, 4]).2.thrown = some "export blew up") ∧
    ((∃ t, mapGet (startBackupFull envOk extExportFail [] "p" "d" "proj"
          [0, 1, 2, 3, 4]).2.map
          (startBackupFull envOk extExportFail [] "p" "d" "proj"
            [0, 1, 2, 3, 4]).1.id =
        some (failedEntry "export blew up" t)) ∧
     (startBackupFull envOk extExportFail [] "p" "d" "proj"
        [0, 1, 2, 3, 4]).2.cleanupAttempted = extExportFail.fileExistsInCatch) :=
  ⟨by decide,
    C6_failed_carries_original_error envOk extExportFail [] "p" "d" "proj"
      [0, 1, 2, 3, 4] "export blew up" (by decide)⟩

end SanityBackups

namespace SanityBackups

/-! ### Claim C7 -/

/-- C7, counterexample: the source checks only `fs.existsSync`, never the
file size — a run whose export produces a zero-byte file proceeds to
upload it and completes, so no non-emptiness verification exists. -/
theorem C7_counterexample :
    extEmptyFile.fileSize = 0 ∧
    (startBackupFull envOk extEmptyFile [] "p" "d" "proj"
      [0, 1, 2, 3, 4]).2.uploadCalls = 1 ∧
    (startBackupFull envOk extEmptyFile [] "p" "d" "proj"
      [0, 1, 2, 3, 4]).2.thrown = none ∧
    mapGet (startBackupFull envOk extEmptyFile [] "p" "d" "proj"
        [0, 1, 2, 3, 4]).2.map "p-d-0" =
      some (completedEntry "proj-2025-01-15-d-p.tar.gz" "etag1" 4) := by
  decide

/-- C7, amended: after a successful export the orchestrator verifies only
that the output file exists; when it does not, the job fails with the
dedicated message `Export file not found: <filename>` (distinct from
export-library messages) and the upload is never invoked.  A zero-byte
file passes the check. -/
theorem C7_amended (env : Env) (ext : Ext) (m : StatusMap)
    (p d pn : String) (clock : List Nat)
    (hv : validateEnv env = none) (hsan : ext.sanityFetchErr = none)
    (hexp : ext.exportErr = none) (hfile : ext.fileExistsAfterExport = false) :
    (startBackupFull env ext m p d pn clock).2.uploadCalls = 0 ∧
    ∃ t, mapGet (startBackupFull env ext m p d pn clock).2.map
        (startBackupFull env ext m p d pn clock).1.id =
      some (failedEntry
        ("Export file not found: " ++ createFilename p d pn ext.today) t) := by
  constructor
  · simp [startBackupFull, performBackupRun, hv, hsan, hexp, hfile, catchBlock]
  · refine ⟨clock.tail.tail.tail.tail.tail.headD 0, ?_⟩
    simp [startBackupFull, startBackupSync, performBackupRun, hv, hsan, hexp,
      hfile, catchBlock, mapGet_mapSet_self]

/-- C7, witness for the amended theorem: export resolves but leaves no
file on disk. -/
theorem C7_amended_witness :
    validateEnv envOk = none ∧ extNoFile.sanityFetchErr = none ∧
    extNoFile.exportErr = none ∧ extNoFile.fileExistsAfterExport = false ∧
    ((startBackupFull envOk extNoFile [] "p" "d" "proj"
        [0, 1, 2, 3, 4]).2.uploadCalls = 0 ∧
     ∃ t, mapGet (startBackupFull envOk extNoFile [] "p" "d" "proj"
          [0, 1, 2, 3, 4]).2.map
          (startBackupFull envOk extNoFile [] "p" "d" "proj"
            [0, 1, 2, 3, 4]).1.id =
        some (failedEntry
          ("Export file not found: " ++
            createFilename "p" "d" "proj" extNoFile.today) t)) :=
  ⟨by decide, by decide, by decide, by decide,
    C7_amended envOk extNoFile [] "p" "d" "proj" [0, 1, 2, 3, 4]
      (by decide) (by decide) (by decide) (by decide)⟩

/-! ### Claim C8 -/

/-- C8, counterexample: two invocations with different arguments — hence
certainly distinct invocations — generate the same backup id when the
hyphen-joined encoding coincides: projectId `p-a` with dataset `b`
collides with projectId `p` and dataset `a-b` at the same millisecond. -/
theorem C8_counterexample :
    (startBackupSync [] "p-a" "b" [5]).id = (startBackupSync [] "p" "a-b" [5]).id ∧
    ("p-a", "b") ≠ ("p", "a-b") := by
  decide

/-- C8, amended: the id is only as unique as the string
`projectId-dataset-timestamp`; for a fixed projectId and dataset, two
invocations receive distinct ids exactly when their millisecond
timestamps differ (so same-millisecond invocations, or hyphen-ambiguous
parameter pairs, collide). -/
theorem C8_amended (p d : String) (t t' : Nat) (h : t ≠ t') :
    backupId p d t ≠ backupId p d t' := by
  intro he
  apply h
  apply decString_injective
  have hdata := congrArg String.data he
  simp only [backupId, String.data_append] at hdata
  have hd := List.append_cancel_left hdata
  exact String.ext hd

/-- C8, witness: distinct milliseconds give distinct ids. -/
theorem C8_amended_witness :
    (1 : Nat) ≠ 2 ∧ backupId "p" "d" 1 ≠ backupId "p" "d" 2 :=
  ⟨by decide, C8_amended "p" "d" 1 2 (by decide)⟩

/-! ### Claim C9 -/

/-- C9, counterexample: the handler performs no validation of the key at
all — with the bucket configured, even the empty key is sent straight to
the storage fetch (which then fails), contradicting the claim that the
key is validated to be non-empty. -/
theorem C9_counterexample :
    (downloadArchive "bucket" "" (.err "NoSuchKey")).fetchInvoked = true ∧
    (downloadArchive "bucket" "" (.err "NoSuchKey")).response =
      .err500 "NoSuchKey" := by
  decide

/-- C9, amended: the handler never validates the key; for every key
(empty included), a nonexistent object or any storage error is caught and
answered with a 500 JSON error response carrying the error message — an
error response, never a hang or a crash. -/
theorem C9_amended (bucket key msg : String) (hb : bucket ≠ "") :
    (downloadArchive bucket key (.err msg)).response = .err500 msg ∧
    (downloadArchive bucket key (.err msg)).fetchInvoked = true := by
  simp [downloadArchive, hb]

/-- C9, witness: downloading a nonexistent key yields the 500 error
response. -/
theorem C9_amended_witness :
    ("bucket" : String) ≠ "" ∧
    ((downloadArchive "bucket" "missing.tar.gz" (.err "NoSuchKey")).response =
      .err500 "NoSuchKey" ∧
     (downloadArchive "bucket" "missing.tar.gz" (.err "NoSuchKey")).fetchInvoked =
      true) :=
  ⟨by decide, C9_amended "bucket" "missing.tar.gz" "NoSuchKey" (by decide)⟩

/-! ### Claim C10 -/

/-- C10: every object whose key ends in `.tar.gz` but splits into fewer
than four hyphen-delimited pieces is still returned by the listing, with
all four parsed fields equal to the empty string. -/
theorem C10_short_keys_included (contents : List S3Object) (obj : S3Object)
    (hmem : obj ∈ contents) (hend : jsEndsWith obj.key ".tar.gz" = true)
    (hshort : (jsSplit obj.key '-').length < 4) :
    ({ key := obj.key, projectName := "", date := "", dataset := ""
       projectId := "", size := obj.size, lastModified := obj.lastModified } :
      ArchiveSummary) ∈ listArchives contents := by
  have hkey : obj.key ≠ "" := by
    intro h
    rw [show obj.key = "" from h] at hend
    exact absurd hend (by decide)
  have hfilter : obj ∈ contents.filter isArchiveKey :=
    List.mem_filter.mpr ⟨hmem, by simp [isArchiveKey, hkey, hend]⟩
  have hparse : parseArchive obj =
      { key := obj.key, projectName := "", date := "", dataset := ""
        projectId := "", size := obj.size, lastModified := obj.lastModified } := by
    unfold parseArchive
    rw [if_neg (by omega)]
  have hmap := List.mem_map_of_mem parseArchive hfilter
  rw [hparse] at hmap
  exact mem_stableSort.mpr hmap

/-- C10, witness: a one-segment key `snapshot.tar.gz` is listed with all
parsed fields empty. -/
theorem C10_short_keys_included_witness :
    (⟨"snapshot.tar.gz", 7, 3⟩ : S3Object) ∈ [(⟨"snapshot.tar.gz", 7, 3⟩ : S3Object)] ∧
    (jsEndsWith "snapshot.tar.gz" ".tar.gz" = true) ∧
    (jsSplit "snapshot.tar.gz" '-').length < 4 ∧
    ({ key := "snapshot.tar.gz", projectName := "", date := "", dataset := ""
       projectId := "", size := 7, lastModified := 3 } : ArchiveSummary) ∈
      listArchives [⟨"snapshot.tar.gz", 7, 3⟩] :=
  ⟨by decide, by decide, by decide,
    C10_short_keys_included [⟨"snapshot.tar.gz", 7, 3⟩] ⟨"snapshot.tar.gz", 7, 3⟩
      (by decide) (by decide) (by decide)⟩

end SanityBackups
